import Mathlib

/-!
Shallow embedding of `src/matrix.h` (PlumpMath/CUDAMatrix): the
`MatrixType<T>` heterogeneous 2-D buffer with allocation kinds
Empty/CPU/GPU/Managed, its creation, copy, access and release operations.

Machine `int` extents are modelled as mathematical `Int`; pointers as `Nat`
with `0` playing the role of `nullptr`.  Raw storage is modelled as an
abstract memory mapping a base pointer and an element offset to a value:
each allocation is its own block, which matches the source where every
base pointer comes from a distinct `new[]` / `cudaMalloc` /
`cudaMallocManaged` call.  The CUDA runtime and the C library are external
collaborators (spec §6); their transfer primitives are modelled as
synchronous element-wise copies and their allocators as returning a fresh
non-null pointer.
-/

namespace CUDAMatrix

/-- `enum MatrixAllocationType { Empty, CPU, GPU, Managed }` (matrix.h:36-38). -/
inductive MatrixAllocationType : Type where
  | Empty : MatrixAllocationType
  | CPU : MatrixAllocationType
  | GPU : MatrixAllocationType
  | Managed : MatrixAllocationType
deriving DecidableEq, Repr

/-- Abstract raw memory: a base pointer (`Nat`, 0 = `nullptr`) and an element
offset map to a stored element.  Memory is total, so uninitialized storage
simply holds arbitrary pre-existing values. -/
def Mem (T : Type) : Type := Nat → Nat → T

/-- `::memcpy` restricted to whole elements: copy `n` elements from the block
at `srcPtr` into the block at `dstPtr`; every other location is untouched.
Reading past the source block is modelled by the total memory (the bytes read
are whatever the memory holds there). -/
def memcpyElems (mem : Mem T) (dstPtr srcPtr : Nat) (n : Nat) : Mem T :=
  fun p i => if p = dstPtr ∧ i < n then mem srcPtr i else mem p i

/-- `enum cudaMemcpyKind` values used by matrix.h. -/
inductive cudaMemcpyKind : Type where
  | HostToDevice : cudaMemcpyKind
  | DeviceToHost : cudaMemcpyKind
  | DeviceToDevice : cudaMemcpyKind
deriving DecidableEq, Repr

/-- `cudaMemcpy` (element-granular): a synchronous copy of `n` elements; the
direction argument selects the hardware path but not the values transferred
(spec §6: four synchronous transfer primitives with identical copy
semantics). -/
def cudaMemcpyElems (mem : Mem T) (dstPtr srcPtr : Nat) (n : Nat)
    (_kind : cudaMemcpyKind) : Mem T :=
  memcpyElems mem dstPtr srcPtr n

/-- `struct MatrixType<T>` (matrix.h:40-47): raw storage pointer, column and
row extents, and the allocation kind tag. -/
structure MatrixType (T : Type) : Type where
  raw : Nat
  col : Int
  row : Int
  allocationType : MatrixAllocationType
deriving DecidableEq, Repr

/-- Allocator state: the memory contents plus the next fresh base pointer.
A well-formed heap hands out only non-null pointers (spec §6: the backend
reports failure rather than returning a corrupt allocation; `new[]` never
returns null on success). -/
structure Heap (T : Type) : Type where
  mem : Mem T
  next : Nat

/-- A heap whose next fresh pointer is non-null. -/
def Heap.wf (h : Heap T) : Prop := 1 ≤ h.next

/-- Allocate a fresh block: return its base pointer and the advanced heap.
Contents are uninitialized (whatever the abstract memory already holds). -/
def Heap.alloc (h : Heap T) : Nat × Heap T :=
  (h.next, { h with next := h.next + 1 })

namespace MatrixType

/-- `int rows() const { return row; }` (matrix.h:50). -/
def rows (m : MatrixType T) : Int := m.row

/-- `int cols() const { return col; }` (matrix.h:53). -/
def cols (m : MatrixType T) : Int := m.col

/-- `int size() const { return row * col; }` (matrix.h:56). -/
def size (m : MatrixType T) : Int := m.row * m.col

/-- `T* data()` / `const T* data() const` (matrix.h:59-62): the raw pointer. -/
def data (m : MatrixType T) : Nat := m.raw

/-- `operator() (int c, int r)` (matrix.h:64-72): `raw [r * col + c]`.
Reading from memory at the computed linear offset. -/
def at2 (mem : Mem T) (m : MatrixType T) (c r : Int) : T :=
  mem m.raw (r * m.col + c).toNat

/-- `operator[] (int i)` (matrix.h:92-96): `raw[i]`. -/
def at1 (mem : Mem T) (m : MatrixType T) (i : Int) : T :=
  mem m.raw i.toNat

/-- `begin()` / `cbegin()` (matrix.h:75-81): the address `raw`, as a pointer
value in element units. -/
def beginAddr (m : MatrixType T) : Int := (m.raw : Int)

/-- `end()` / `cend()` (matrix.h:84-90): the address `raw + (col * row)` in
element units. -/
def endAddr (m : MatrixType T) : Int := (m.raw : Int) + m.col * m.row

/-- `static MatrixType<T> CreateCPU (int cols, int rows)` (matrix.h:98-101):
`T* data = new T [rows * cols]; return { data, cols, rows, CPU };`. -/
def CreateCPU (h : Heap T) (cols rows : Int) : MatrixType T × Heap T :=
  let (data, h1) := h.alloc
  ({ raw := data, col := cols, row := rows,
     allocationType := MatrixAllocationType.CPU }, h1)

/-- `static MatrixType<T> CreateGPU (int cols, int rows)` (matrix.h:103-107):
`cudaMalloc(&data, sizeof(T)*rows*cols); return { data, cols, rows, GPU };`. -/
def CreateGPU (h : Heap T) (cols rows : Int) : MatrixType T × Heap T :=
  let (data, h1) := h.alloc
  ({ raw := data, col := cols, row := rows,
     allocationType := MatrixAllocationType.GPU }, h1)

/-- `static MatrixType<T> CreateManaged (int cols, int rows)`
(matrix.h:109-112).  The source body reads
`cudaMallocManaged((void**)(&data), sizeof(T)*rows*cols); return { data, cols,
rows, Managed };` but omits the local declaration `T* data;` that its sibling
`CreateGPU` has, so instantiating it is ill-formed (`data` resolves to the
member function overload set).  Modelled from the spec: `CreateUnified(cols,
rows)` allocates memory addressable from both host and device and returns a
buffer with `kind = Unified`, mirroring `CreateGPU` with the `Managed` tag —
the evident intent of the source. -/
def CreateManaged (h : Heap T) (cols rows : Int) : MatrixType T × Heap T :=
  let (data, h1) := h.alloc
  ({ raw := data, col := cols, row := rows,
     allocationType := MatrixAllocationType.Managed }, h1)

/-- `void copyFrom (const MatrixType<T>& other)` (matrix.h:114-158): a 4×4
switch on `(allocationType, other.allocationType)`.  Every transfer copies
`sizeof(T) * size()` bytes, i.e. `this->size()` elements (the destination's
extent); `Empty` on either side falls to `default: break` and does nothing.
The method writes only through `raw` and never assigns to the members, so the
buffer value itself is returned unchanged alongside the updated memory.  The
element count `size().toNat` matches the source for the non-negative sizes the
spec admits (a negative `int` size would wrap through `size_t` in C++). -/
def copyFrom (self : MatrixType T) (mem : Mem T) (other : MatrixType T) :
    MatrixType T × Mem T :=
  let newMem :=
    match self.allocationType with
    | MatrixAllocationType.CPU =>
      match other.allocationType with
      | MatrixAllocationType.CPU
      | MatrixAllocationType.Managed =>
        memcpyElems mem self.raw other.raw self.size.toNat
      | MatrixAllocationType.GPU =>
        cudaMemcpyElems mem self.raw other.raw self.size.toNat
          cudaMemcpyKind.DeviceToHost
      | MatrixAllocationType.Empty => mem
    | MatrixAllocationType.GPU =>
      match other.allocationType with
      | MatrixAllocationType.CPU
      | MatrixAllocationType.Managed =>
        cudaMemcpyElems mem self.raw other.raw self.size.toNat
          cudaMemcpyKind.HostToDevice
      | MatrixAllocationType.GPU =>
        cudaMemcpyElems mem self.raw other.raw self.size.toNat
          cudaMemcpyKind.DeviceToDevice
      | MatrixAllocationType.Empty => mem
    | MatrixAllocationType.Managed =>
      match other.allocationType with
      | MatrixAllocationType.CPU
      | MatrixAllocationType.Managed =>
        memcpyElems mem self.raw other.raw self.size.toNat
      | MatrixAllocationType.GPU =>
        cudaMemcpyElems mem self.raw other.raw self.size.toNat
          cudaMemcpyKind.DeviceToHost
      | MatrixAllocationType.Empty => mem
    | MatrixAllocationType.Empty => mem
  (self, newMem)

end MatrixType

/-- `CreateCPUMatrix<T>(int cols, int rows)` (matrix.h:162-165). -/
def CreateCPUMatrix (h : Heap T) (cols rows : Int) : MatrixType T × Heap T :=
  MatrixType.CreateCPU h cols rows

/-- `CreateGPUMatrix<T>(int cols, int rows)` (matrix.h:167-170). -/
def CreateGPUMatrix (h : Heap T) (cols rows : Int) : MatrixType T × Heap T :=
  MatrixType.CreateGPU h cols rows

/-- `CreateManagedMatrix<T>(int cols, int rows)` (matrix.h:172-175); forwards
to `MatrixType::CreateManaged` (see its docstring for the source defect). -/
def CreateManagedMatrix (h : Heap T) (cols rows : Int) : MatrixType T × Heap T :=
  MatrixType.CreateManaged h cols rows

/-- `CreateCPUMatrix<T>(const MatrixType<T>&)` (matrix.h:177-184): the
clone-with-relocation form.  Empty source: return `{nullptr, 0, 0, Empty}`
with no allocation; otherwise allocate a CPU buffer with the source's extents
and `copyFrom` the source. -/
def CreateCPUMatrixFrom (h : Heap T) (other : MatrixType T) :
    MatrixType T × Heap T :=
  if other.allocationType = MatrixAllocationType.Empty then
    ({ raw := 0, col := 0, row := 0,
       allocationType := MatrixAllocationType.Empty }, h)
  else
    let (result, h1) := CreateCPUMatrix h other.cols other.rows
    let (result1, mem1) := result.copyFrom h1.mem other
    (result1, { h1 with mem := mem1 })

/-- `CreateGPUMatrix<T>(const MatrixType<T>&)` (matrix.h:186-193). -/
def CreateGPUMatrixFrom (h : Heap T) (other : MatrixType T) :
    MatrixType T × Heap T :=
  if other.allocationType = MatrixAllocationType.Empty then
    ({ raw := 0, col := 0, row := 0,
       allocationType := MatrixAllocationType.Empty }, h)
  else
    let (result, h1) := CreateGPUMatrix h other.cols other.rows
    let (result1, mem1) := result.copyFrom h1.mem other
    (result1, { h1 with mem := mem1 })

/-- `CreateManagedMatrix<T>(const MatrixType<T>&)` (matrix.h:195-202). -/
def CreateManagedMatrixFrom (h : Heap T) (other : MatrixType T) :
    MatrixType T × Heap T :=
  if other.allocationType = MatrixAllocationType.Empty then
    ({ raw := 0, col := 0, row := 0,
       allocationType := MatrixAllocationType.Empty }, h)
  else
    let (result, h1) := CreateManagedMatrix h other.cols other.rows
    let (result1, mem1) := result.copyFrom h1.mem other
    (result1, { h1 with mem := mem1 })

/-- `void FreeMatrix (MatrixType<T>&)` (matrix.h:204-219): deallocates the
region via the kind-matching path (`delete[]` for CPU, `cudaFree` for GPU and
Managed — neither has an observable effect on the abstract memory), then sets
`mat.raw = nullptr` and `mat.allocationType = Empty`.  The source assigns
nothing to `row` or `col`. -/
def FreeMatrix (mat : MatrixType T) : MatrixType T :=
  { mat with raw := 0, allocationType := MatrixAllocationType.Empty }

/-- The spec §3 invariant on a buffer value: `kind == Empty` iff the storage
pointer is null. -/
def kindNullInv (m : MatrixType T) : Prop :=
  m.allocationType = MatrixAllocationType.Empty ↔ m.raw = 0

instance (m : MatrixType T) : Decidable (kindNullInv m) := by
  unfold kindNullInv; infer_instance

end CUDAMatrix

namespace CUDAMatrix

/-! ### Helper lemmas on the memory model and `copyFrom` -/

theorem memcpyElems_lt (mem : Mem T) (d s n i : Nat) (hi : i < n) :
    memcpyElems mem d s n d i = mem s i := by
  simp [memcpyElems, hi]

theorem memcpyElems_ge (mem : Mem T) (d s n i : Nat) (hi : n ≤ i) :
    memcpyElems mem d s n d i = mem d i := by
  simp [memcpyElems, Nat.not_lt.mpr hi]

theorem memcpyElems_other (mem : Mem T) (d s n p i : Nat) (hp : p ≠ d) :
    memcpyElems mem d s n p i = mem p i := by
  simp [memcpyElems, hp]

/-- On any pair of non-Empty kinds, `copyFrom` updates memory by one
`size()`-element copy from `other.raw` into `self.raw` (all four switch
branches invoke the same abstract transfer). -/
theorem copyFrom_snd_eq (self other : MatrixType T) (mem : Mem T)
    (hs : self.allocationType ≠ MatrixAllocationType.Empty)
    (ho : other.allocationType ≠ MatrixAllocationType.Empty) :
    (self.copyFrom mem other).2 =
      memcpyElems mem self.raw other.raw self.size.toNat := by
  cases h1 : self.allocationType <;> cases h2 : other.allocationType <;>
    simp_all [MatrixType.copyFrom, cudaMemcpyElems]

/-- `copyFrom` with `Empty` on either side leaves memory untouched. -/
theorem copyFrom_snd_empty (self other : MatrixType T) (mem : Mem T)
    (h : self.allocationType = MatrixAllocationType.Empty ∨
         other.allocationType = MatrixAllocationType.Empty) :
    (self.copyFrom mem other).2 = mem := by
  rcases h with h | h
  · simp [MatrixType.copyFrom, h]
  · cases h1 : self.allocationType <;> simp [MatrixType.copyFrom, h1, h]

/-! ### Shared concrete instances for witnesses -/

/-- A concrete memory for witnesses. -/
def wMem : Mem Nat := fun p i => p * 100 + i

/-- A concrete well-formed heap for witnesses. -/
def wHeap : Heap Nat := { mem := wMem, next := 1 }

/-- A concrete live CPU buffer: pointer 5, 2 columns, 3 rows. -/
def cexBuf : MatrixType Nat :=
  { raw := 5, col := 2, row := 3, allocationType := MatrixAllocationType.CPU }

/-- A concrete Empty buffer. -/
def emptyBuf : MatrixType Nat :=
  { raw := 0, col := 0, row := 0, allocationType := MatrixAllocationType.Empty }

end CUDAMatrix

namespace CUDAMatrix

/-! ### Characterization of the clone-with-relocation forms on live sources -/

theorem CreateCPUMatrixFrom_nonempty (h : Heap T) (other : MatrixType T)
    (ho : other.allocationType ≠ MatrixAllocationType.Empty) :
    CreateCPUMatrixFrom h other =
      ({ raw := h.next, col := other.col, row := other.row,
         allocationType := MatrixAllocationType.CPU },
       { mem := memcpyElems h.mem h.next other.raw other.size.toNat,
         next := h.next + 1 }) := by
  have hcopy := copyFrom_snd_eq
    (T := T)
    { raw := h.next, col := other.col, row := other.row,
      allocationType := MatrixAllocationType.CPU }
    other h.mem (by simp) ho
  simp only [CreateCPUMatrixFrom, CreateCPUMatrix, MatrixType.CreateCPU,
    Heap.alloc, MatrixType.cols, MatrixType.rows, if_neg ho]
  rw [hcopy]
  simp [MatrixType.copyFrom, MatrixType.size]

theorem CreateGPUMatrixFrom_nonempty (h : Heap T) (other : MatrixType T)
    (ho : other.allocationType ≠ MatrixAllocationType.Empty) :
    CreateGPUMatrixFrom h other =
      ({ raw := h.next, col := other.col, row := other.row,
         allocationType := MatrixAllocationType.GPU },
       { mem := memcpyElems h.mem h.next other.raw other.size.toNat,
         next := h.next + 1 }) := by
  have hcopy := copyFrom_snd_eq
    (T := T)
    { raw := h.next, col := other.col, row := other.row,
      allocationType := MatrixAllocationType.GPU }
    other h.mem (by simp) ho
  simp only [CreateGPUMatrixFrom, CreateGPUMatrix, MatrixType.CreateGPU,
    Heap.alloc, MatrixType.cols, MatrixType.rows, if_neg ho]
  rw [hcopy]
  simp [MatrixType.copyFrom, MatrixType.size]

theorem CreateManagedMatrixFrom_nonempty (h : Heap T) (other : MatrixType T)
    (ho : other.allocationType ≠ MatrixAllocationType.Empty) :
    CreateManagedMatrixFrom h other =
      ({ raw := h.next, col := other.col, row := other.row,
         allocationType := MatrixAllocationType.Managed },
       { mem := memcpyElems h.mem h.next other.raw other.size.toNat,
         next := h.next + 1 }) := by
  have hcopy := copyFrom_snd_eq
    (T := T)
    { raw := h.next, col := other.col, row := other.row,
      allocationType := MatrixAllocationType.Managed }
    other h.mem (by simp) ho
  simp only [CreateManagedMatrixFrom, CreateManagedMatrix,
    MatrixType.CreateManaged, Heap.alloc, MatrixType.cols, MatrixType.rows,
    if_neg ho]
  rw [hcopy]
  simp [MatrixType.copyFrom, MatrixType.size]

end CUDAMatrix

namespace CUDAMatrix

/-! ### Claim theorems -/

/-- C1 counterexample: the live CPU buffer `cexBuf` (2 columns, 3 rows) has
`kind = Empty` after `FreeMatrix`, but `size()` still evaluates to 6 and
`end() - begin()` to 6 — size-derived computations do not reflect zero
extent, because `FreeMatrix` never resets `row` or `col`. -/
theorem freeMatrix_zero_extent_cex :
    cexBuf.allocationType ≠ MatrixAllocationType.Empty ∧
    (FreeMatrix cexBuf).allocationType = MatrixAllocationType.Empty ∧
    (FreeMatrix cexBuf).size = 6 ∧ (FreeMatrix cexBuf).size ≠ 0 ∧
    (FreeMatrix cexBuf).endAddr - (FreeMatrix cexBuf).beginAddr = 6 := by
  decide

/-- C1 (amended): for every buffer `b` with `kind ≠ Empty`, `FreeMatrix`
leaves `b` with `kind = Empty` and a null storage pointer, but `row` and
`col` — and hence `size()` — retain their pre-release values (the original
extent, not zero). -/
theorem freeMatrix_empties_kind_keeps_extents (m : MatrixType T)
    (h : m.allocationType ≠ MatrixAllocationType.Empty) :
    (FreeMatrix m).allocationType = MatrixAllocationType.Empty ∧
    (FreeMatrix m).raw = 0 ∧
    (FreeMatrix m).row = m.row ∧ (FreeMatrix m).col = m.col ∧
    (FreeMatrix m).size = m.size := by
  refine ⟨rfl, rfl, rfl, rfl, rfl⟩

theorem freeMatrix_empties_kind_keeps_extents_witness :
    (FreeMatrix cexBuf).allocationType = MatrixAllocationType.Empty ∧
    (FreeMatrix cexBuf).raw = 0 ∧
    (FreeMatrix cexBuf).row = cexBuf.row ∧
    (FreeMatrix cexBuf).col = cexBuf.col ∧
    (FreeMatrix cexBuf).size = cexBuf.size :=
  freeMatrix_empties_kind_keeps_extents cexBuf (by decide)

/-- C2: for every pair of non-Empty kinds and every destination `dst` and
source `src` of those kinds with `dst.size() == src.size()`, `copyFrom`
makes the destination's contents element-wise equal to the source's. -/
theorem copyFrom_copies_src_contents (mem : Mem T) (dst src : MatrixType T)
    (hd : dst.allocationType ≠ MatrixAllocationType.Empty)
    (hs : src.allocationType ≠ MatrixAllocationType.Empty)
    (hsize : dst.size = src.size) :
    ∀ i < dst.size.toNat, (dst.copyFrom mem src).2 dst.raw i = mem src.raw i := by
  intro i hi
  rw [copyFrom_snd_eq dst src mem hd hs]
  exact memcpyElems_lt mem dst.raw src.raw dst.size.toNat i hi

theorem copyFrom_copies_src_contents_witness :
    ((cexBuf.copyFrom wMem
        { raw := 9, col := 2, row := 3,
          allocationType := MatrixAllocationType.GPU }).2 cexBuf.raw 0
      = wMem 9 0) :=
  copyFrom_copies_src_contents wMem cexBuf
    { raw := 9, col := 2, row := 3, allocationType := MatrixAllocationType.GPU }
    (by decide) (by decide) (by decide) 0 (by decide)

/-- C3: `CreateManagedMatrix(cols, rows)` (settled against the spec-modelled
`CreateManaged`, since the source body is ill-formed — see its docstring)
returns a buffer with `kind = Managed` and `size() = cols * rows`. -/
theorem createManagedMatrix_kind_size (h : Heap T) (cols rows : Int)
    (hc : 0 ≤ cols) (hr : 0 ≤ rows) :
    (CreateManagedMatrix h cols rows).1.allocationType =
      MatrixAllocationType.Managed ∧
    (CreateManagedMatrix h cols rows).1.size = cols * rows := by
  refine ⟨rfl, ?_⟩
  simp [CreateManagedMatrix, MatrixType.CreateManaged, Heap.alloc,
    MatrixType.size, mul_comm]

theorem createManagedMatrix_kind_size_witness :
    (CreateManagedMatrix wHeap 2 3).1.allocationType =
      MatrixAllocationType.Managed ∧
    (CreateManagedMatrix wHeap 2 3).1.size = 2 * 3 :=
  createManagedMatrix_kind_size wHeap 2 3 (by decide) (by decide)

/-- C5: each clone-with-relocation form applied to an Empty buffer returns
the Empty buffer `{nullptr, 0, 0, Empty}` and leaves the heap untouched
(no allocation), independent of which kind was requested. -/
theorem cloneEmpty_yields_empty (h : Heap T) (other : MatrixType T)
    (ho : other.allocationType = MatrixAllocationType.Empty) :
    CreateCPUMatrixFrom h other =
      ({ raw := 0, col := 0, row := 0,
         allocationType := MatrixAllocationType.Empty }, h) ∧
    CreateGPUMatrixFrom h other =
      ({ raw := 0, col := 0, row := 0,
         allocationType := MatrixAllocationType.Empty }, h) ∧
    CreateManagedMatrixFrom h other =
      ({ raw := 0, col := 0, row := 0,
         allocationType := MatrixAllocationType.Empty }, h) := by
  refine ⟨?_, ?_, ?_⟩ <;>
    simp [CreateCPUMatrixFrom, CreateGPUMatrixFrom, CreateManagedMatrixFrom, ho]

theorem cloneEmpty_yields_empty_witness :
    CreateCPUMatrixFrom wHeap emptyBuf =
      ({ raw := 0, col := 0, row := 0,
         allocationType := MatrixAllocationType.Empty }, wHeap) ∧
    CreateGPUMatrixFrom wHeap emptyBuf =
      ({ raw := 0, col := 0, row := 0,
         allocationType := MatrixAllocationType.Empty }, wHeap) ∧
    CreateManagedMatrixFrom wHeap emptyBuf =
      ({ raw := 0, col := 0, row := 0,
         allocationType := MatrixAllocationType.Empty }, wHeap) :=
  cloneEmpty_yields_empty wHeap emptyBuf (by decide)

/-- C6: `copyFrom` with `Empty` on either side is a no-op: the destination
value (pointer, extents, kind) and the entire memory are returned exactly
as they were; no transfer happens. -/
theorem copyFrom_empty_noop (mem : Mem T) (dst src : MatrixType T)
    (h : dst.allocationType = MatrixAllocationType.Empty ∨
         src.allocationType = MatrixAllocationType.Empty) :
    dst.copyFrom mem src = (dst, mem) := by
  have h2 := copyFrom_snd_empty dst src mem h
  have h1 : (dst.copyFrom mem src).1 = dst := rfl
  calc dst.copyFrom mem src
      = ((dst.copyFrom mem src).1, (dst.copyFrom mem src).2) := rfl
    _ = (dst, mem) := by rw [h1, h2]

theorem copyFrom_empty_noop_witness :
    emptyBuf.copyFrom wMem cexBuf = (emptyBuf, wMem) :=
  copyFrom_empty_noop wMem emptyBuf cexBuf (Or.inl (by decide))

/-- C7: `copyFrom` never changes the destination's kind, extents, or storage
pointer — the returned buffer value equals `dst` — and writes memory only
through `dst.raw`: every block at a different base pointer is untouched. -/
theorem copyFrom_frame (mem : Mem T) (dst src : MatrixType T) :
    (dst.copyFrom mem src).1 = dst ∧
    ∀ p, p ≠ dst.raw → ∀ i, (dst.copyFrom mem src).2 p i = mem p i := by
  refine ⟨rfl, ?_⟩
  intro p hp i
  cases h1 : dst.allocationType <;> cases h2 : src.allocationType <;>
    simp [MatrixType.copyFrom, cudaMemcpyElems, memcpyElems, h1, h2, hp]

theorem copyFrom_frame_witness :
    (cexBuf.copyFrom wMem cexBuf).1 = cexBuf ∧
    (cexBuf.copyFrom wMem cexBuf).2 9 4 = wMem 9 4 :=
  ⟨(copyFrom_frame wMem cexBuf cexBuf).1,
   (copyFrom_frame wMem cexBuf cexBuf).2 9 (by decide) 4⟩

/-- C9: for every valid index pair `(c, r)` (within the column and row
extents), the 2-D accessor agrees with linear access at the row-major
offset: `buf(c, r) = buf[r * cols + c]`. -/
theorem at2_eq_at1 (mem : Mem T) (m : MatrixType T) (c r : Int)
    (hc0 : 0 ≤ c) (hc : c < m.cols) (hr0 : 0 ≤ r) (hr : r < m.rows) :
    MatrixType.at2 mem m c r = MatrixType.at1 mem m (r * m.cols + c) := by
  simp [MatrixType.at2, MatrixType.at1, MatrixType.cols]

theorem at2_eq_at1_witness :
    MatrixType.at2 wMem cexBuf 1 2 =
      MatrixType.at1 wMem cexBuf (2 * cexBuf.cols + 1) :=
  at2_eq_at1 wMem cexBuf 1 2 (by decide) (by decide) (by decide) (by decide)

/-- C10: on any pair of non-Empty kinds, `copyFrom` transfers exactly
`dst.size()` elements, whatever `src.size()` is: destination offsets below
`dst.size()` receive the source's values and offsets at or above
`dst.size()` are unchanged. -/
theorem copyFrom_transfers_dst_size (mem : Mem T) (dst src : MatrixType T)
    (hd : dst.allocationType ≠ MatrixAllocationType.Empty)
    (hs : src.allocationType ≠ MatrixAllocationType.Empty)
    (hsz : 0 ≤ dst.size) :
    (∀ i < dst.size.toNat, (dst.copyFrom mem src).2 dst.raw i = mem src.raw i) ∧
    (∀ i, dst.size.toNat ≤ i →
      (dst.copyFrom mem src).2 dst.raw i = mem dst.raw i) := by
  rw [copyFrom_snd_eq dst src mem hd hs]
  exact ⟨fun i hi => memcpyElems_lt mem dst.raw src.raw dst.size.toNat i hi,
         fun i hi => memcpyElems_ge mem dst.raw src.raw dst.size.toNat i hi⟩

theorem copyFrom_transfers_dst_size_witness :
    ((cexBuf.copyFrom wMem
        { raw := 9, col := 50, row := 50,
          allocationType := MatrixAllocationType.Managed }).2 cexBuf.raw 0
        = wMem 9 0) ∧
    ((cexBuf.copyFrom wMem
        { raw := 9, col := 50, row := 50,
          allocationType := MatrixAllocationType.Managed }).2 cexBuf.raw 6
        = wMem cexBuf.raw 6) :=
  ⟨(copyFrom_transfers_dst_size wMem cexBuf
      { raw := 9, col := 50, row := 50,
        allocationType := MatrixAllocationType.Managed }
      (by decide) (by decide) (by decide)).1 0 (by decide),
   (copyFrom_transfers_dst_size wMem cexBuf
      { raw := 9, col := 50, row := 50,
        allocationType := MatrixAllocationType.Managed }
      (by decide) (by decide) (by decide)).2 6 (by decide)⟩

end CUDAMatrix

namespace CUDAMatrix

/-- C4: round trip through the device preserves contents: for every host
(CPU) buffer `m`, the buffer `CreateCPUMatrixFrom (CreateGPUMatrixFrom m)`
holds the same element as `m` at every linear offset below `size()`. -/
theorem roundTrip_preserves_contents (h : Heap T) (m : MatrixType T)
    (hk : m.allocationType = MatrixAllocationType.CPU)
    (i : Nat) (hi : i < m.size.toNat) :
    (CreateCPUMatrixFrom (CreateGPUMatrixFrom h m).2
        (CreateGPUMatrixFrom h m).1).2.mem
      (CreateCPUMatrixFrom (CreateGPUMatrixFrom h m).2
        (CreateGPUMatrixFrom h m).1).1.raw i
      = h.mem m.raw i := by
  have hne : m.allocationType ≠ MatrixAllocationType.Empty := by simp [hk]
  have e1 := CreateGPUMatrixFrom_nonempty h m hne
  have hd : (MatrixType.mk (T := T) h.next m.col m.row
      MatrixAllocationType.GPU).allocationType
      ≠ MatrixAllocationType.Empty := by simp
  have e2 := CreateCPUMatrixFrom_nonempty
    (Heap.mk (memcpyElems h.mem h.next m.raw m.size.toNat) (h.next + 1))
    (MatrixType.mk (T := T) h.next m.col m.row MatrixAllocationType.GPU) hd
  simp only [MatrixType.size] at hi e2
  simp only [e1, MatrixType.size]
  simp only [e2]
  rw [memcpyElems_lt, memcpyElems_lt] <;> exact hi

theorem roundTrip_preserves_contents_witness :
    (CreateCPUMatrixFrom (CreateGPUMatrixFrom wHeap cexBuf).2
        (CreateGPUMatrixFrom wHeap cexBuf).1).2.mem
      (CreateCPUMatrixFrom (CreateGPUMatrixFrom wHeap cexBuf).2
        (CreateGPUMatrixFrom wHeap cexBuf).1).1.raw 0
      = wHeap.mem cexBuf.raw 0 :=
  roundTrip_preserves_contents wHeap cexBuf (by decide) 0 (by decide)

/-- C8: the invariant `kind == Empty ⇔ storage pointer is null` holds for
the buffer produced by each creation operation over a well-formed heap
(extent forms and clone forms alike) and is preserved by `copyFrom` and by
`FreeMatrix`. -/
theorem kindNullInv_creation_copy_free (h : Heap T) (cols rows : Int)
    (m other : MatrixType T) (hw : h.wf) :
    kindNullInv (MatrixType.CreateCPU h cols rows).1 ∧
    kindNullInv (MatrixType.CreateGPU h cols rows).1 ∧
    kindNullInv (MatrixType.CreateManaged h cols rows).1 ∧
    kindNullInv (CreateCPUMatrixFrom h other).1 ∧
    kindNullInv (CreateGPUMatrixFrom h other).1 ∧
    kindNullInv (CreateManagedMatrixFrom h other).1 ∧
    (kindNullInv m → kindNullInv (m.copyFrom h.mem other).1) ∧
    kindNullInv (FreeMatrix m) := by
  have hn : h.next ≠ 0 := by
    unfold Heap.wf at hw
    omega
  refine ⟨?_, ?_, ?_, ?_, ?_, ?_, fun hm => hm, ?_⟩
  · simp [kindNullInv, MatrixType.CreateCPU, Heap.alloc, hn]
  · simp [kindNullInv, MatrixType.CreateGPU, Heap.alloc, hn]
  · simp [kindNullInv, MatrixType.CreateManaged, Heap.alloc, hn]
  · by_cases ho : other.allocationType = MatrixAllocationType.Empty
    · simp [CreateCPUMatrixFrom, ho, kindNullInv]
    · rw [CreateCPUMatrixFrom_nonempty h other ho]
      simp [kindNullInv, hn]
  · by_cases ho : other.allocationType = MatrixAllocationType.Empty
    · simp [CreateGPUMatrixFrom, ho, kindNullInv]
    · rw [CreateGPUMatrixFrom_nonempty h other ho]
      simp [kindNullInv, hn]
  · by_cases ho : other.allocationType = MatrixAllocationType.Empty
    · simp [CreateManagedMatrixFrom, ho, kindNullInv]
    · rw [CreateManagedMatrixFrom_nonempty h other ho]
      simp [kindNullInv, hn]
  · simp [kindNullInv, FreeMatrix]

theorem kindNullInv_creation_copy_free_witness :
    kindNullInv (MatrixType.CreateCPU wHeap 2 3).1 ∧
    kindNullInv (MatrixType.CreateGPU wHeap 2 3).1 ∧
    kindNullInv (MatrixType.CreateManaged wHeap 2 3).1 ∧
    kindNullInv (CreateCPUMatrixFrom wHeap cexBuf).1 ∧
    kindNullInv (CreateGPUMatrixFrom wHeap cexBuf).1 ∧
    kindNullInv (CreateManagedMatrixFrom wHeap cexBuf).1 ∧
    (kindNullInv cexBuf → kindNullInv (cexBuf.copyFrom wHeap.mem cexBuf).1) ∧
    kindNullInv (FreeMatrix cexBuf) :=
  kindNullInv_creation_copy_free wHeap 2 3 cexBuf cexBuf (Nat.le_refl 1)

end CUDAMatrix
